import Mathlib

/-!
Verification of the algal-CSV parsing core (`claire_alga/Modules/extract.py`,
with the archived near-duplicate `archive/appv2.py` for comparison).

The embedding mirrors `extract_sections` from `claire_alga/Modules/extract.py`,
the implementation the current driver (`claire_alga/appv3.py`) imports.
Python strings are modelled as Lean `String`; Python `str.lower()` and
`str.strip()` are modelled by the structurally recursive `strLower` and
`strTrim` below (faithful on the ASCII data these claims concern).
A Python `None` cell is modelled as `Option.none`.  Python `raise ValueError`
is modelled by the `ParseError` sum; the constructor `unboundLocal` models
the Python `UnboundLocalError` that `extract.py` raises at its `return`
statement when the local `metadata_dict` was never assigned (the branch at
extract.py:50 is the only assignment site).
-/

set_option maxRecDepth 4000

namespace AlgaCsv

/-- Model of Python `str.lower()` (ASCII case folding, as used by the data). -/
def strLower (s : String) : String := ⟨s.data.map Char.toLower⟩

/-- Model of Python `str.strip()`: drop leading and trailing whitespace. -/
def strTrim (s : String) : String :=
  ⟨((s.data.dropWhile Char.isWhitespace).reverse.dropWhile Char.isWhitespace).reverse⟩

/-- `charListContains needle hay`: `needle` occurs as a contiguous sublist of `hay`. -/
def charListContains (needle : List Char) : List Char → Bool
  | [] => needle.isEmpty
  | c :: rest => needle.isPrefixOf (c :: rest) || charListContains needle rest

/-- Model of Python `needle in hay` for strings (substring occurrence). -/
def containsSub (hay needle : String) : Bool := charListContains needle.toList hay.toList

/-- A raw cell: Python `None` or a string (extract.py:18-25). -/
abbrev Cell := Option String

/-- A normalized row of trimmed strings. -/
abbrev Row := List String

/-- extract.py:20-23 — `None` normalizes to `""`, anything else to `str(x).strip()`. -/
def normalize_cell : Cell → String
  | none => ""
  | some s => strTrim s

/-- extract.py:15-26 — normalize every row of the document. -/
def nrows (all_rows : List (List Cell)) : List Row :=
  all_rows.map (fun row => row.map normalize_cell)

/-- extract.py:32 — Table 1 header predicate: some cell contains "taxon" and
some cell contains "station", case-insensitive **substring** matching. -/
def isTable1Header (r : Row) : Bool :=
  r.any (fun c => containsSub (strLower c) "taxon") &&
  r.any (fun c => containsSub (strLower c) "station")

/-- extract.py:45 — a row with at least one cell whose strip is non-empty
(also the Table 3 stop test at extract.py:217, where `normalize_cell`
re-strips each cell and Python truthiness means non-empty). -/
def rowNonEmpty (r : Row) : Bool := r.any (fun c => strTrim c != "")

/-- extract.py:70-73 — index of the first header cell equal to "taxon"
case-insensitively. -/
def taxonIdx? (header1 : Row) : Option Nat :=
  header1.findIdx? (fun col => strLower col == "taxon")

/-- extract.py:82 — Table 1 stop sentinel: some cell contains "phyto" and some
cell contains "diversity" (case-insensitive substrings; note: no colon). -/
def isSentinel1 (r : Row) : Bool :=
  r.any (fun c => containsSub (strLower c) "phyto") &&
  r.any (fun c => containsSub (strLower c) "diversity")

/-- extract.py:163 — Table 2 stop: some cell contains "====". -/
def rowHasStop2 (r : Row) : Bool := r.any (fun c => containsSub (strLower c) "====")

/-- extract.py:105-109 — Table 2 header predicate: first cell present and empty,
some non-empty cell equals "mg/m^3" case-insensitively, some cell contains
"units or cells/l", and at least two cells are exactly "%". -/
def isTable2Header (r : Row) : Bool :=
  (match r with | [] => false | c :: _ => c == "") &&
  r.any (fun c => c != "" && strLower c == "mg/m^3") &&
  r.any (fun c => containsSub (strLower c) "units or cells/l") &&
  decide (2 ≤ r.countP (fun c => c == "%"))

/-- extract.py:192-196 — Table 3 header predicate: at least 4 cells, first cell
empty, and cells equal (case-insensitively) to "mg/m^3", "cells-units/l",
"ratio" somewhere in the row. -/
def isTable3Header (r : Row) : Bool :=
  decide (4 ≤ r.length) && (r.getD 0 "" == "") &&
  r.any (fun c => strLower c == "mg/m^3") &&
  r.any (fun c => strLower c == "cells-units/l") &&
  r.any (fun c => strLower c == "ratio")

/-- Python-dict update used for `metadata_dict[k] = v` and `collected[n] = v`:
replace the value at the first occurrence of the key, else append. -/
def dictInsert : List (String × String) → String → String → List (String × String)
  | [], k, v => [(k, v)]
  | p :: rest, k, v => if p.1 == k then (k, v) :: rest else p :: dictInsert rest k v

/-- Python `d.get(k, "")` on the association list. -/
def dictGet : List (String × String) → String → String
  | [], _ => ""
  | p :: rest, k => if p.1 == k then p.2 else dictGet rest k

/-- extract.py:58-63 — the metadata row read as alternating key/value pairs;
a trailing unpaired cell is dropped, empty keys are skipped. -/
def metaPairs : List String → List (String × String) → List (String × String)
  | k :: v :: rest, d => metaPairs rest (if k != "" then dictInsert d k v else d)
  | _, d => d

/-- extract.py:40-63 — metadata from the rows strictly above the Table 1 header:
`none` when no pre-header row is non-empty, in which case the Python local
`metadata_dict` is never assigned. -/
def metadataOf (rows : List Row) (idx1 : Nat) : Option (List (String × String)) :=
  let pre := rows.take idx1
  match pre.findIdx? rowNonEmpty with
  | none => none
  | some mi => some (metaPairs (pre.getD mi []) [])

/-- extract.py:92-93 — right-pad with `""` to width `w`, then slice to `w`. -/
def padTo (w : Nat) (l : List String) : List String :=
  (l ++ List.replicate (w - l.length) "").take w

/-- A table: column names plus records (each a list of cells, one per column). -/
structure Table where
  header : Row
  records : List Row
deriving DecidableEq, Repr

/-- extract.py:67-94 — Table 1 extraction given the header index and the Taxon
column index; also returns the resume index `i` (the sentinel row or end). -/
def table1Of (rows : List Row) (idx1 idxTaxon : Nat) : Table × Nat :=
  let header1 := rows.getD idx1 []
  let body1 := (rows.drop (idx1 + 1)).takeWhile (fun r => !(isSentinel1 r))
  let filtered := body1.filter (fun r => decide (idxTaxon < r.length) && (r.getD idxTaxon "" != ""))
  let width1 := filtered.foldl (fun w r => max w r.length) header1.length
  (⟨padTo width1 header1, filtered.map (padTo width1)⟩, idx1 + 1 + body1.length)

/-- extract.py:154 — the five kept canonical columns. -/
def keep_headers : List String := ["Alga", "mg/m^3", "mg/m^3_%", "Cells-units/L", "Cells-units/L_%"]

/-- extract.py:155 — Table 2 output columns. -/
def t2_headers_final : List String := keep_headers ++ ["ratio"]

/-- extract.py:205 — Table 3 / merged output columns. -/
def t3_target_headers : List String :=
  ["Alga", "mg/m^3", "mg/m^3_%", "Cells-units/L", "Cells-units/L_%", "ratio"]

/-- extract.py:128-151 — walk the Table 2 header cells carrying the number of
already-mapped columns (`nc`, the length of `t2_headers_norm`) and the number
of "%" cells seen (`ps`); emit the canonical name each raw column maps to. -/
def buildHeaderMapAux : List String → Nat → Nat → List (Option String)
  | [], _, _ => []
  | c :: rest, nc, ps =>
    if c == "" && nc == 0 then
      some "Alga" :: buildHeaderMapAux rest (nc + 1) ps
    else if strLower c == "mg/m^3" then
      some "mg/m^3" :: buildHeaderMapAux rest (nc + 1) ps
    else if c == "%" then
      (if ps + 1 == 1 then some "mg/m^3_%" else some "Cells-units/L_%") ::
        buildHeaderMapAux rest (nc + 1) (ps + 1)
    else if containsSub (strLower c) "units or cells/l" then
      some "Cells-units/L" :: buildHeaderMapAux rest (nc + 1) ps
    else
      none :: buildHeaderMapAux rest nc ps

/-- extract.py:128-151 — the positional header map of a Table 2 header row. -/
def buildHeaderMap (hdr : Row) : List (Option String) := buildHeaderMapAux hdr 0 0

/-- extract.py:170-174 — walk `header_map` with the running raw index, building
the `collected` dict; a raw position past the row's end contributes `""`. -/
def collectRowAux : List (Option String) → Row → Nat → List (String × String) → List (String × String)
  | [], _, _, d => d
  | c :: rest, row, start, d =>
    collectRowAux rest row (start + 1)
      (match c with
       | some n => if keep_headers.contains n then dictInsert d n (row.getD start "") else d
       | none => d)

/-- The `collected` dict of one Table 2 body row. -/
def collectRow (hm : List (Option String)) (row : Row) : List (String × String) :=
  collectRowAux hm row 0 []

/-- extract.py:166-178 — one Table 2 record: the five kept columns in order,
then the `""` placeholder appended for the sixth column. -/
def t2Record (hm : List (Option String)) (row : Row) : List String :=
  (keep_headers.map (fun h => dictGet (collectRow hm row) h)) ++ [""]

/-- extract.py:157-180 — Table 2 extraction from the header index; also returns
the resume index (the "====" row or end of document). -/
def table2Of (rows : List Row) (idx2 : Nat) : Table × Nat :=
  let hm := buildHeaderMap (rows.getD idx2 [])
  let body2 := (rows.drop (idx2 + 1)).takeWhile (fun r => !(rowHasStop2 r))
  (⟨t2_headers_final, body2.map (t2Record hm)⟩, idx2 + 1 + body2.length)

/-- extract.py:222-226 — one Table 3 record from raw positions 0-3, with the
two "%" placeholder columns inserted empty. -/
def t3Record (r : Row) : List String :=
  [r.getD 0 "", r.getD 1 "", "", r.getD 2 "", "", r.getD 3 ""]

/-- extract.py:206-230 — Table 3 extraction: rows after the header until the
first fully blank row (or end of document). -/
def table3Of (rows : List Row) (idx3 : Nat) : Table :=
  let body3 := (rows.drop (idx3 + 1)).takeWhile rowNonEmpty
  ⟨t3_target_headers, body3.map t3Record⟩

/-- extract.py:103 / 189 — forward scans from a resume index return a global row
index when the predicate first holds. -/
def table2HeaderIdx? (rows : List Row) (i : Nat) : Option Nat :=
  ((rows.drop i).findIdx? isTable2Header).map (fun k => i + k)

/-- extract.py:189-198 — Table 3 header scan from the Table 2 resume index. -/
def table3HeaderIdx? (rows : List Row) (i : Nat) : Option Nat :=
  ((rows.drop i).findIdx? isTable3Header).map (fun k => i + k)

/-- The errors `extract_sections` can raise.  The three `ValueError`s of
extract.py:37/75/115/201 become `missingHeader`/`missingColumn`; `unboundLocal`
models the Python `UnboundLocalError` at extract.py:239 when `metadata_dict`
was never assigned (no non-empty row above the Table 1 header). -/
inductive ParseError where
  | missingHeader (tbl : String)
  | missingColumn (col : String)
  | unboundLocal (name : String)
deriving DecidableEq, Repr

/-- The tuple extract.py:239 returns (the merged table last). -/
structure ParseResult where
  metadata : List (String × String)
  table1 : Table
  table2 : Table
  table3 : Table
  merged : Table
deriving DecidableEq, Repr

deriving instance DecidableEq for Except

/-- extract.py:8-239 — the whole parse.  Note extract.py:236: the reprojection
`df2[t3_target_headers]` is guarded by `list(df2.columns) != t3_target_headers`,
and `t2_headers_final = t3_target_headers` holds definitionally, so the merged
records are exactly Table 2's records followed by Table 3's. -/
def extract_sections (all_rows : List (List Cell)) : Except ParseError ParseResult :=
  match (nrows all_rows).findIdx? isTable1Header with
  | none => .error (.missingHeader "Table1")
  | some idx1 =>
    match taxonIdx? ((nrows all_rows).getD idx1 []) with
    | none => .error (.missingColumn "Taxon")
    | some idxTaxon =>
      match table2HeaderIdx? (nrows all_rows) ((table1Of (nrows all_rows) idx1 idxTaxon).2) with
      | none => .error (.missingHeader "Table2")
      | some idx2 =>
        match table3HeaderIdx? (nrows all_rows) ((table2Of (nrows all_rows) idx2).2) with
        | none => .error (.missingHeader "Table3")
        | some idx3 =>
          match metadataOf (nrows all_rows) idx1 with
          | none => .error (.unboundLocal "metadata_dict")
          | some md =>
            .ok ⟨md, (table1Of (nrows all_rows) idx1 idxTaxon).1,
                 (table2Of (nrows all_rows) idx2).1,
                 table3Of (nrows all_rows) idx3,
                 ⟨t3_target_headers,
                  (table2Of (nrows all_rows) idx2).1.records ++
                    (table3Of (nrows all_rows) idx3).records⟩⟩

/-- appv2.py:22-38 — the archived implementation's exact/substring token
matcher (`substring=False` is exact cell equality after normalization). -/
def row_contains_all (row : List Cell) (required : List String)
    (case_insensitive : Bool) (substring : Bool) : Bool :=
  let cells := row.map normalize_cell
  let cells_lookup := if case_insensitive then cells.map strLower else cells
  let req := if case_insensitive then required.map strLower else required
  req.all (fun token =>
    if substring then cells_lookup.any (fun c => containsSub c token)
    else cells_lookup.contains token)

/-- Lift a list of plain string rows into the raw document type. -/
def mkDoc (ls : List (List String)) : List (List Cell) := ls.map (fun r => r.map some)

/-! ### List utility lemmas -/

theorem findIdx?_getD {α : Type} (p : α → Bool) (l : List α) (i : Nat) (d : α)
    (h : l.findIdx? p = some i) :
    i < l.length ∧ p (l.getD i d) = true ∧ ∀ j, j < i → p (l.getD j d) = false := by
  induction l generalizing i with
  | nil => simp [List.findIdx?_nil] at h
  | cons a t ih =>
    rw [List.findIdx?_cons] at h
    by_cases hpa : p a = true
    · simp [hpa] at h
      subst h
      exact ⟨Nat.succ_pos _, by simpa using hpa, fun j hj => absurd hj (Nat.not_lt_zero j)⟩
    · simp [hpa] at h
      obtain ⟨i', hi', rfl⟩ := h
      obtain ⟨hlen, hp, hprev⟩ := ih i' hi'
      refine ⟨Nat.succ_lt_succ hlen, by simpa using hp, ?_⟩
      intro j hj
      cases j with
      | zero => simpa using hpa
      | succ j' => simpa using hprev j' (Nat.lt_of_succ_lt_succ hj)

theorem takeWhile_getD {α : Type} (p : α → Bool) (l : List α) (j : Nat) (d : α)
    (hj : j < (l.takeWhile p).length) :
    (l.takeWhile p).getD j d = l.getD j d ∧ p (l.getD j d) = true := by
  induction l generalizing j with
  | nil => simp [List.takeWhile_nil] at hj
  | cons a t ih =>
    by_cases hpa : p a = true
    · rw [List.takeWhile_cons_of_pos hpa] at hj ⊢
      cases j with
      | zero => simpa using hpa
      | succ j' => simpa using ih j' (Nat.lt_of_succ_lt_succ hj)
    · rw [List.takeWhile_cons_of_neg hpa] at hj
      simp at hj

theorem takeWhile_stopD {α : Type} (p : α → Bool) (l : List α) (d : α)
    (h : (l.takeWhile p).length < l.length) :
    p (l.getD (l.takeWhile p).length d) = false := by
  induction l with
  | nil => simp at h
  | cons a t ih =>
    by_cases hpa : p a = true
    · rw [List.takeWhile_cons_of_pos hpa] at h ⊢
      simpa using ih (Nat.lt_of_succ_lt_succ h)
    · rw [List.takeWhile_cons_of_neg hpa]
      simpa using hpa

theorem takeWhile_length_le' {α : Type} (p : α → Bool) (l : List α) :
    (l.takeWhile p).length ≤ l.length := by
  induction l with
  | nil => simp
  | cons a t ih =>
    by_cases hpa : p a = true
    · rw [List.takeWhile_cons_of_pos hpa]; simp [ih]
    · rw [List.takeWhile_cons_of_neg hpa]; simp

theorem getD_drop' {α : Type} (l : List α) (n j : Nat) (d : α) :
    (l.drop n).getD j d = l.getD (n + j) d := by
  induction l generalizing n with
  | nil => simp
  | cons a t ih =>
    cases n with
    | zero => simp
    | succ n' =>
      rw [List.drop_succ_cons, ih, Nat.succ_add]
      simp

theorem getD_append_lt {α : Type} (l l' : List α) (i : Nat) (d : α) (h : i < l.length) :
    (l ++ l').getD i d = l.getD i d := by
  induction l generalizing i with
  | nil => simp at h
  | cons a t ih =>
    cases i with
    | zero => simp
    | succ i' => simpa using ih i' (Nat.lt_of_succ_lt_succ h)

theorem foldl_max_init_le (l : List Row) (a : Nat) :
    a ≤ l.foldl (fun w r => max w r.length) a := by
  induction l generalizing a with
  | nil => exact Nat.le_refl a
  | cons x t ih => exact Nat.le_trans (Nat.le_max_left a x.length) (ih (max a x.length))

theorem foldl_max_mem_le (l : List Row) (a : Nat) (r : Row) (hr : r ∈ l) :
    r.length ≤ l.foldl (fun w r => max w r.length) a := by
  induction l generalizing a with
  | nil => cases hr
  | cons x t ih =>
    rcases List.mem_cons.mp hr with h | h
    · subst h
      exact Nat.le_trans (Nat.le_max_right a r.length) (foldl_max_init_le t _)
    · exact ih _ h

theorem take_append_self {α : Type} (l₁ l₂ : List α) : (l₁ ++ l₂).take l₁.length = l₁ := by
  induction l₁ with
  | nil => simp
  | cons a t ih => simp [ih]

theorem drop_append_self {α : Type} (l₁ l₂ : List α) : (l₁ ++ l₂).drop l₁.length = l₂ := by
  induction l₁ with
  | nil => simp
  | cons a t ih => simp [ih]

/-! ### padTo lemmas -/

theorem padTo_length (w : Nat) (l : List String) : (padTo w l).length = w := by
  simp only [padTo, List.length_take, List.length_append, List.length_replicate]
  omega

theorem padTo_eq_append (w : Nat) (l : List String) (hw : l.length ≤ w) :
    padTo w l = l ++ List.replicate (w - l.length) "" := by
  unfold padTo
  apply List.take_of_length_le
  simp only [List.length_append, List.length_replicate]
  omega

theorem padTo_getD_lt (w : Nat) (l : List String) (i : Nat) (hi : i < l.length)
    (hw : l.length ≤ w) : (padTo w l).getD i "" = l.getD i "" := by
  rw [padTo_eq_append w l hw]
  exact getD_append_lt l _ i "" hi

/-! ### Dictionary lemmas -/

theorem dictGet_insert_self (d : List (String × String)) (k v : String) :
    dictGet (dictInsert d k v) k = v := by
  induction d with
  | nil => simp [dictInsert, dictGet]
  | cons p rest ih =>
    by_cases hk : p.1 = k
    · simp [dictInsert, dictGet, hk]
    · simp only [dictInsert, dictGet, beq_iff_eq, hk, if_false]
      simpa [dictGet, hk] using ih

theorem dictGet_insert_ne (d : List (String × String)) (k' k v : String) (h : k' ≠ k) :
    dictGet (dictInsert d k' v) k = dictGet d k := by
  induction d with
  | nil => simp [dictInsert, dictGet, h]
  | cons p rest ih =>
    by_cases hk : p.1 = k'
    · simp [dictInsert, dictGet, hk, h]
    · simp only [dictInsert, beq_iff_eq, hk, if_false]
      by_cases hpk : p.1 = k
      · simp [dictGet, hpk]
      · simp [dictGet, hpk, ih]

/-- The rightmost index of `hm` carrying canonical name `n` (the "last writer"
among the raw header positions mapped to `n`). -/
def lastMapIdx? : List (Option String) → String → Option Nat
  | [], _ => none
  | c :: rest, n =>
    match lastMapIdx? rest n with
    | some j => some (j + 1)
    | none => if c == some n then some 0 else none

theorem collectRowAux_get (hm : List (Option String)) (row : Row) (start : Nat)
    (d : List (String × String)) (n : String) (hn : n ∈ keep_headers) :
    dictGet (collectRowAux hm row start d) n =
      match lastMapIdx? hm n with
      | some j => row.getD (start + j) ""
      | none => dictGet d n := by
  induction hm generalizing start d with
  | nil => simp [collectRowAux, lastMapIdx?]
  | cons c rest ih =>
    rw [show collectRowAux (c :: rest) row start d = collectRowAux rest row (start + 1)
          (match c with
           | some n' => if keep_headers.contains n' then dictInsert d n' (row.getD start "") else d
           | none => d) from rfl]
    rw [ih]
    simp only [lastMapIdx?]
    cases hrest : lastMapIdx? rest n with
    | some j =>
      dsimp only
      have harith : start + 1 + j = start + (j + 1) := by omega
      rw [harith]
    | none =>
      dsimp only
      cases c with
      | none => simp [dictGet]
      | some n' =>
        by_cases hn' : n' = n
        · subst hn'
          have hk : keep_headers.contains n' = true := by simpa using hn
          simp only [beq_self_eq_true, if_true]
          rw [if_pos hk, Nat.add_zero]
          exact dictGet_insert_self d n' _
        · have hne : (some n' == some n) = false := by simpa using hn'
          simp only [hne, Bool.false_eq_true, if_false]
          by_cases hkeep : keep_headers.contains n' = true
          · rw [if_pos hkeep]
            exact dictGet_insert_ne d n' n _ hn'
          · rw [if_neg (by simpa using hkeep)]

theorem collectRow_get (hm : List (Option String)) (row : Row) (n : String)
    (hn : n ∈ keep_headers) :
    dictGet (collectRow hm row) n =
      match lastMapIdx? hm n with
      | some j => row.getD j ""
      | none => "" := by
  rw [collectRow, collectRowAux_get hm row 0 [] n hn]
  cases lastMapIdx? hm n with
  | some j => simp
  | none => simp [dictGet]

/-! ### Header map lemmas -/

theorem buildHeaderMapAux_percent (cs : List String) (nc ps i : Nat)
    (hp : cs.getD i "" = "%") :
    (buildHeaderMapAux cs nc ps).getD i none =
      some (if ps + (cs.take i).count "%" = 0 then "mg/m^3_%" else "Cells-units/L_%") := by
  induction cs generalizing i nc ps with
  | nil =>
    exfalso
    cases i <;> simp [List.getD] at hp
  | cons c rest ih =>
    cases i with
    | zero =>
      simp only [List.getD_cons_zero] at hp
      subst hp
      rw [buildHeaderMapAux]
      have h1 : (("%" : String) == "") = false := by decide
      have h2 : (strLower "%" == "mg/m^3") = false := by decide
      have h3 : (("%" : String) == "%") = true := by decide
      simp only [h1, Bool.false_and, Bool.false_eq_true, if_false, h2, h3, if_true,
        List.getD_cons_zero, List.take_zero, List.count_nil, Nat.add_zero]
      by_cases hps : ps = 0
      · subst hps; simp
      · have hb : (ps + 1 == 1) = false := by
          rw [beq_eq_false_iff_ne]
          omega
        simp [hb, hps]
    | succ i' =>
      simp only [List.getD_cons_succ] at hp
      have hcount : ((c :: rest).take (i' + 1)).count "%" =
          (if c == "%" then 1 else 0) + (rest.take i').count "%" := by
        by_cases hc : c = "%"
        · subst hc
          simp only [List.take_succ_cons, List.count_cons, beq_self_eq_true, if_true]
          omega
        · have hcb : (c == "%") = false := by simpa using hc
          simp only [List.take_succ_cons, List.count_cons, hcb, Bool.false_eq_true, if_false]
          omega
      rw [buildHeaderMapAux]
      by_cases hb1 : (c == "" && nc == 0) = true
      · have hc : (c == "%") = false := by
          have hce : c = "" := by
            simp only [Bool.and_eq_true, beq_iff_eq] at hb1
            exact hb1.1
          subst hce; decide
        rw [if_pos hb1]
        simp only [List.getD_cons_succ]
        rw [ih (nc + 1) ps i' hp, hcount, hc]
        simp
      · rw [if_neg (by simpa using hb1)]
        by_cases hb2 : (strLower c == "mg/m^3") = true
        · have hc : (c == "%") = false := by
            have hlc : strLower c = "mg/m^3" := by simpa using hb2
            by_contra hcc
            rw [Bool.not_eq_false] at hcc
            have hcc' : c = "%" := by simpa using hcc
            subst hcc'
            exact absurd hlc (by decide)
          rw [if_pos hb2]
          simp only [List.getD_cons_succ]
          rw [ih (nc + 1) ps i' hp, hcount, hc]
          simp
        · rw [if_neg (by simpa using hb2)]
          by_cases hb3 : (c == "%") = true
          · rw [if_pos hb3]
            simp only [List.getD_cons_succ]
            rw [ih (nc + 1) (ps + 1) i' hp, hcount, hb3]
            have hz1 : ps + 1 + (rest.take i').count "%" ≠ 0 := by omega
            have hz2 : ps + (1 + (rest.take i').count "%") ≠ 0 := by omega
            simp [hz1, hz2]
          · rw [if_neg (by simpa using hb3)]
            have hc : (c == "%") = false := by simpa using hb3
            by_cases hb4 : (containsSub (strLower c) "units or cells/l") = true
            · rw [if_pos hb4]
              simp only [List.getD_cons_succ]
              rw [ih (nc + 1) ps i' hp, hcount, hc]
              simp
            · rw [if_neg (by simpa using hb4)]
              simp only [List.getD_cons_succ]
              rw [ih nc ps i' hp, hcount, hc]
              simp

/-! ### Record shape lemmas -/

theorem t2Record_length (hm : List (Option String)) (row : Row) :
    (t2Record hm row).length = 6 := by
  simp [t2Record, keep_headers]

theorem t2Record_ratio (hm : List (Option String)) (row : Row) :
    (t2Record hm row).getD 5 "" = "" := by
  simp only [t2Record, keep_headers]
  rfl

theorem t3Record_length (r : Row) : (t3Record r).length = 6 := by
  simp [t3Record]

theorem t3Record_ratio (r : Row) : (t3Record r).getD 5 "" = r.getD 3 "" := by
  simp [t3Record]

/-! ### Blank row lemmas -/

theorem getD_of_blank (r : Row) (hb : ∀ c ∈ r, c = "") (i : Nat) : r.getD i "" = "" := by
  induction r generalizing i with
  | nil => simp
  | cons c t ih =>
    cases i with
    | zero => simpa using hb c (List.mem_cons_self c t)
    | succ i' =>
      simp only [List.getD_cons_succ]
      exact ih (fun x hx => hb x (List.mem_cons_of_mem c hx)) i'

theorem dictGet_of_all_empty (d : List (String × String)) (hd : ∀ p ∈ d, p.2 = "")
    (n : String) : dictGet d n = "" := by
  induction d with
  | nil => rfl
  | cons p rest ih =>
    rw [dictGet]
    by_cases hp : p.1 = n
    · simp only [hp, beq_self_eq_true, if_true]
      exact hd p (List.mem_cons_self p rest)
    · have : (p.1 == n) = false := by simpa using hp
      rw [this]
      simp only [Bool.false_eq_true, if_false]
      exact ih (fun q hq => hd q (List.mem_cons_of_mem p hq))

theorem dictInsert_all_empty (d : List (String × String)) (hd : ∀ p ∈ d, p.2 = "")
    (k : String) : ∀ p ∈ dictInsert d k "", p.2 = "" := by
  induction d with
  | nil =>
    intro p hp
    simp only [dictInsert, List.mem_singleton] at hp
    simp [hp]
  | cons q rest ih =>
    intro p hp
    rw [dictInsert] at hp
    by_cases hq : q.1 = k
    · simp only [hq, beq_self_eq_true, if_true] at hp
      rcases List.mem_cons.mp hp with h | h
      · simp [h]
      · exact hd p (List.mem_cons_of_mem q h)
    · have hqf : (q.1 == k) = false := by simpa using hq
      rw [hqf] at hp
      simp only [Bool.false_eq_true, if_false] at hp
      rcases List.mem_cons.mp hp with h | h
      · exact hd p (h ▸ List.mem_cons_self q rest)
      · exact ih (fun x hx => hd x (List.mem_cons_of_mem q hx)) p h

theorem collectRowAux_all_empty (hm : List (Option String)) (r : Row)
    (hb : ∀ c ∈ r, c = "") (start : Nat) (d : List (String × String))
    (hd : ∀ p ∈ d, p.2 = "") : ∀ p ∈ collectRowAux hm r start d, p.2 = "" := by
  induction hm generalizing start d with
  | nil => exact hd
  | cons c rest ih =>
    rw [show collectRowAux (c :: rest) r start d = collectRowAux rest r (start + 1)
          (match c with
           | some n' => if keep_headers.contains n' then dictInsert d n' (r.getD start "") else d
           | none => d) from rfl]
    apply ih
    cases c with
    | none => exact hd
    | some n' =>
      dsimp only
      by_cases hkeep : keep_headers.contains n' = true
      · rw [if_pos hkeep, getD_of_blank r hb start]
        exact dictInsert_all_empty d hd n'
      · rw [if_neg (by simpa using hkeep)]
        exact hd

/-- A fully blank body row yields the all-empty six-cell record, whatever the
header map is. -/
theorem t2Record_blank (hm : List (Option String)) (r : Row) (hb : ∀ c ∈ r, c = "") :
    t2Record hm r = List.replicate 6 "" := by
  have hall : ∀ n, dictGet (collectRow hm r) n = "" := fun n =>
    dictGet_of_all_empty _ (collectRowAux_all_empty hm r hb 0 [] (by simp)) n
  simp only [t2Record, keep_headers, List.map_cons, List.map_nil, hall]
  rfl

/-! ### Success shape of the parse -/

theorem extract_ok_shape (d : List (List Cell)) (res : ParseResult)
    (h : extract_sections d = .ok res) :
    ∃ idx1 idxTaxon idx2 idx3 md,
      (nrows d).findIdx? isTable1Header = some idx1 ∧
      taxonIdx? ((nrows d).getD idx1 []) = some idxTaxon ∧
      table2HeaderIdx? (nrows d) ((table1Of (nrows d) idx1 idxTaxon).2) = some idx2 ∧
      table3HeaderIdx? (nrows d) ((table2Of (nrows d) idx2).2) = some idx3 ∧
      metadataOf (nrows d) idx1 = some md ∧
      res = ⟨md, (table1Of (nrows d) idx1 idxTaxon).1, (table2Of (nrows d) idx2).1,
             table3Of (nrows d) idx3,
             ⟨t3_target_headers,
              (table2Of (nrows d) idx2).1.records ++ (table3Of (nrows d) idx3).records⟩⟩ := by
  unfold extract_sections at h
  split at h
  · exact Except.noConfusion h
  case _ idx1 h1 =>
    split at h
    · exact Except.noConfusion h
    case _ idxTaxon h2 =>
      split at h
      · exact Except.noConfusion h
      case _ idx2 h3 =>
        split at h
        · exact Except.noConfusion h
        case _ idx3 h4 =>
          split at h
          · exact Except.noConfusion h
          case _ md h5 =>
            exact ⟨idx1, idxTaxon, idx2, idx3, md, h1, h2, h3, h4, h5,
              (Except.ok.inj h).symm⟩

/-! ### Concrete documents -/

/-- A well-formed document exercising all sections (used as witness input). -/
def wdoc : List (List Cell) := mkDoc [
  ["Site", "A"],
  ["Taxon", "Station"],
  ["Algae1", "S1"],
  ["Phyto Diversity:"],
  ["", "mg/m^3", "%", "units or Cells/L", "%"],
  ["AlgaX", "1", "2", "3", "4"],
  ["===="],
  ["", "mg/m^3", "Cells-units/L", "ratio"],
  ["AlgaY", "5", "6", "0.7"]]

/-- The parse result of `wdoc` (checked by evaluation below). -/
def wres : ParseResult :=
  ⟨[("Site", "A")],
   ⟨["Taxon", "Station"], [["Algae1", "S1"]]⟩,
   ⟨t2_headers_final, [["AlgaX", "1", "2", "3", "4", ""]]⟩,
   ⟨t3_target_headers, [["AlgaY", "5", "", "6", "", "0.7"]]⟩,
   ⟨t3_target_headers, [["AlgaX", "1", "2", "3", "4", ""], ["AlgaY", "5", "", "6", "", "0.7"]]⟩⟩

theorem wdoc_ok : extract_sections wdoc = .ok wres := by decide

/-- No row matches the exact Taxon/Station predicate, yet extract.py's
substring scan accepts row 0 and then fails on the Taxon column instead. -/
def c1doc : List (List Cell) := mkDoc [["Taxonomy", "Station A"]]

/-- A valid document whose only flaw is that every row above the Table 1
header is absent: `metadata_dict` is never assigned. -/
def c2doc : List (List Cell) := mkDoc [
  ["Taxon", "Station"],
  ["Algae1", "S1"],
  ["Phyto Diversity:"],
  ["", "mg/m^3", "%", "units or Cells/L", "%"],
  ["AlgaX", "1", "2", "3", "4"],
  ["===="],
  ["", "mg/m^3", "Cells-units/L", "ratio"],
  ["AlgaY", "5", "6", "7"]]

/-- The spec's concrete Table 1 scenario (spec §8). -/
def c4doc : List (List Cell) := mkDoc [
  ["Site", "A"],
  [],
  ["Taxon", "Station", "Count"],
  ["Diatom", "1", "5"],
  ["", "", "Phyto", "Diversity:", "0.5"]]

/-- A Table 2 header with three exact "%" cells followed by a five-cell body
row: the third "%" position (index 5) is past the row's end. -/
def c5doc : List (List Cell) := mkDoc [
  ["Site", "A"],
  ["Taxon", "Station"],
  ["Algae1", "S1"],
  ["Phyto Diversity:"],
  ["", "mg/m^3", "%", "units or Cells/L", "%", "%"],
  ["A", "1", "2", "3", "4"],
  ["===="],
  ["", "mg/m^3", "Cells-units/L", "ratio"],
  ["AlgaY", "5", "6", "0.7"]]

/-- Row 3 contains "Phyto" and "Diversity" but not "Diversity:"; extract.py
stops the Table 1 body there anyway. -/
def c9doc : List (List Cell) := mkDoc [
  ["Site", "A"],
  ["Taxon", "Station"],
  ["Algae1", "S1"],
  ["Phyto Diversity index"],
  ["Algae2", "S2"],
  ["Phyto Diversity: 0.5"],
  ["", "mg/m^3", "%", "units or Cells/L", "%"],
  ["AlgaX", "1", "2", "3", "4"],
  ["===="],
  ["", "mg/m^3", "Cells-units/L", "ratio"],
  ["AlgaY", "5", "6", "0.7"]]

/-! ### Claim theorems -/

/-- C1 (counterexample): in `c1doc` no row passes the exact
(`substring=False`) Taxon/Station test of the claim, yet the parse does not
fail with the Table 1 missing-header error — extract.py's substring scan
accepts row 0 and the parse instead fails on the missing "Taxon" column. -/
theorem C1_counterexample :
    c1doc.all (fun r => !(row_contains_all r ["Taxon", "Station"] true false)) = true ∧
    extract_sections c1doc = .error (.missingColumn "Taxon") ∧
    ParseError.missingColumn "Taxon" ≠ ParseError.missingHeader "Table1" :=
  ⟨by decide, by decide, by decide⟩

/-- C1 (amended): Table 1 header discovery selects the index of the first row
in which "taxon" and "station" each occur as case-insensitive substrings of
some cell; if no row of the document satisfies this substring predicate, the
parse fails with the Table 1 missing-header error. -/
theorem C1_header_discovery (d : List (List Cell)) (i : Nat) :
    ((nrows d).findIdx? isTable1Header = none →
      extract_sections d = .error (.missingHeader "Table1")) ∧
    ((nrows d).findIdx? isTable1Header = some i →
      isTable1Header ((nrows d).getD i []) = true ∧
      ∀ j, j < i → isTable1Header ((nrows d).getD j []) = false) := by
  constructor
  · intro h
    unfold extract_sections
    rw [h]
  · intro h
    obtain ⟨-, hp, hprev⟩ := findIdx?_getD isTable1Header (nrows d) i [] h
    exact ⟨hp, hprev⟩

/-- C1 witness: the discovery hypothesis discharged on `c1doc` at index 0. -/
theorem C1_witness : isTable1Header ((nrows c1doc).getD 0 []) = true :=
  ((C1_header_discovery c1doc 0).2 (by decide)).1

/-- C2: on a document whose rows above the Table 1 header are all absent,
extract.py does not return the empty metadata mapping — the local
`metadata_dict` is never assigned and the `return` raises `UnboundLocalError`
(the archived appv2.py initializes `metadata_dict = {}` and returns `{}`,
which is what the claim and the spec describe). -/
theorem C2_unbound_metadata :
    extract_sections c2doc = .error (.unboundLocal "metadata_dict") := by decide

/-- C3 (counterexample): on `wdoc` the parse succeeds and the single Table 3
record carries "0.7" — the raw row's fourth cell — in its ratio position
(index 5), so the ratio value is not the empty string in every record. -/
theorem C3_counterexample :
    (extract_sections wdoc).map (fun r => r.table3.records) =
      .ok [["AlgaY", "5", "", "6", "", "0.7"]] ∧
    (["AlgaY", "5", "", "6", "", "0.7"] : Row).getD 5 "" ≠ "" :=
  ⟨by decide, by decide⟩

/-- C3 (amended): whenever the parse succeeds, the ratio column is present
(every Table 2/3 record has 6 cells); in every Table 2 record its value is the
empty string; every Table 3 record is `t3Record` of some source row, whose
ratio cell is copied verbatim from that row's fourth cell (so it may be
non-empty); the merged records are Table 2's followed by Table 3's. -/
theorem C3_ratio_column (d : List (List Cell)) (res : ParseResult)
    (h : extract_sections d = .ok res) :
    (∀ rec ∈ res.table2.records, rec.length = 6 ∧ rec.getD 5 "" = "") ∧
    (∀ rec ∈ res.table3.records, rec.length = 6 ∧
      ∃ r, rec = t3Record r ∧ rec.getD 5 "" = r.getD 3 "") ∧
    res.merged.records = res.table2.records ++ res.table3.records := by
  obtain ⟨i1, it, i2, i3, md, -, -, -, -, -, rfl⟩ := extract_ok_shape d res h
  refine ⟨?_, ?_, rfl⟩
  · intro rec hrec
    simp only [table2Of] at hrec
    obtain ⟨r, -, rfl⟩ := List.mem_map.mp hrec
    exact ⟨t2Record_length _ _, t2Record_ratio _ _⟩
  · intro rec hrec
    simp only [table3Of] at hrec
    obtain ⟨r, -, rfl⟩ := List.mem_map.mp hrec
    exact ⟨t3Record_length _, r, rfl, t3Record_ratio _⟩

/-- C3 witness: the amended theorem applied to the concrete parse of `wdoc`. -/
theorem C3_witness : wres.merged.records = wres.table2.records ++ wres.table3.records :=
  (C3_ratio_column wdoc wres (by decide)).2.2

/-- C4 (counterexample): on the spec's concrete scenario document the parse
does not succeed — after the Table 1 sentinel row no Table 2 header exists,
so the whole parse aborts with the Table 2 missing-header error. -/
theorem C4_counterexample :
    extract_sections c4doc = .error (.missingHeader "Table2") := by decide

/-- C4 (amended): on the scenario document the parse fails with
MissingHeaderError("Table2") (nothing is returned); the Table 1 stage up to
that failure does compute metadata {"Site": "A"}, header
["Taxon","Station","Count"] located at row 2, Taxon column 0, and the single
record ["Diatom","1","5"]. -/
theorem C4_stage_values :
    extract_sections c4doc = .error (.missingHeader "Table2") ∧
    (nrows c4doc).findIdx? isTable1Header = some 2 ∧
    metadataOf (nrows c4doc) 2 = some [("Site", "A")] ∧
    taxonIdx? ((nrows c4doc).getD 2 []) = some 0 ∧
    (table1Of (nrows c4doc) 2 0).1 =
      ⟨["Taxon", "Station", "Count"], [["Diatom", "1", "5"]]⟩ :=
  ⟨by decide, by decide, by decide, by decide, by decide⟩

/-- C6: whenever the parse succeeds, Table 2 and Table 3 carry exactly the six
canonical column names in the fixed order, and every record of either table
has exactly 6 cells, whatever the raw source rows looked like. -/
theorem C6_canonical_schema (d : List (List Cell)) (res : ParseResult)
    (h : extract_sections d = .ok res) :
    res.table2.header =
      ["Alga", "mg/m^3", "mg/m^3_%", "Cells-units/L", "Cells-units/L_%", "ratio"] ∧
    res.table3.header =
      ["Alga", "mg/m^3", "mg/m^3_%", "Cells-units/L", "Cells-units/L_%", "ratio"] ∧
    (∀ rec ∈ res.table2.records, rec.length = 6) ∧
    (∀ rec ∈ res.table3.records, rec.length = 6) := by
  obtain ⟨i1, it, i2, i3, md, -, -, -, -, -, rfl⟩ := extract_ok_shape d res h
  refine ⟨rfl, rfl, ?_, ?_⟩
  · intro rec hrec
    simp only [table2Of] at hrec
    obtain ⟨r, -, rfl⟩ := List.mem_map.mp hrec
    exact t2Record_length _ _
  · intro rec hrec
    simp only [table3Of] at hrec
    obtain ⟨r, -, rfl⟩ := List.mem_map.mp hrec
    exact t3Record_length _

/-- C6 witness: the schema fact discharged on the concrete parse of `wdoc`. -/
theorem C6_witness :
    wres.table2.header =
      ["Alga", "mg/m^3", "mg/m^3_%", "Cells-units/L", "Cells-units/L_%", "ratio"] :=
  (C6_canonical_schema wdoc wres (by decide)).1

/-- C7: whenever the parse succeeds, the merged table has the canonical
schema, its record count is the sum of the two tables' counts, its first
`len(Table2)` records are Table 2's records in order and the rest are
Table 3's records in order — nothing dropped, transformed or deduplicated. -/
theorem C7_merge (d : List (List Cell)) (res : ParseResult)
    (h : extract_sections d = .ok res) :
    res.merged.header = t3_target_headers ∧
    res.merged.records.length = res.table2.records.length + res.table3.records.length ∧
    res.merged.records.take res.table2.records.length = res.table2.records ∧
    res.merged.records.drop res.table2.records.length = res.table3.records := by
  obtain ⟨i1, it, i2, i3, md, -, -, -, -, -, rfl⟩ := extract_ok_shape d res h
  exact ⟨rfl, List.length_append _ _, take_append_self _ _, drop_append_self _ _⟩

/-- C7 witness: the merge fact discharged on the concrete parse of `wdoc`. -/
theorem C7_witness :
    wres.merged.records.length = wres.table2.records.length + wres.table3.records.length :=
  (C7_merge wdoc wres (by decide)).2.1

/-- The Table 2 header and short body row of the C5 counterexample. -/
def c5hdr : Row := ["", "mg/m^3", "%", "units or Cells/L", "%", "%"]

/-- The five-cell body row under the six-column header `c5hdr`. -/
def c5row : Row := ["A", "1", "2", "3", "4"]

/-- C5 (counterexample): with three "%" header cells (positions 2, 4, 5) and a
five-cell body row, the claim's "rightmost position within the row's length"
for Cells-units/L_% is position 4 with value "4"; extract.py instead lets the
out-of-range position 5 overwrite it with "", as the full parse shows. -/
theorem C5_counterexample :
    buildHeaderMap ((nrows c5doc).getD 4 []) =
      [some "Alga", some "mg/m^3", some "mg/m^3_%", some "Cells-units/L",
       some "Cells-units/L_%", some "Cells-units/L_%"] ∧
    ((nrows c5doc).getD 5 []).getD 4 "" = "4" ∧
    (extract_sections c5doc).map (fun r => r.table2.records) =
      .ok [["A", "1", "2", "3", "", ""]] :=
  ⟨by decide, by decide, by decide⟩

/-- C5 (amended): the first exact "%" header cell maps to mg/m^3_% and every
subsequent one to Cells-units/L_%; and for every body row and kept canonical
name, the stored value is read at the rightmost raw position the header maps
to that name — over all header positions, with a position at or beyond the
row's length contributing the empty string (last writer wins even when out of
range). -/
theorem C5_percent_mapping (hdr row : Row) (i : Nat) (n : String)
    (hp : hdr.getD i "" = "%") (hn : n ∈ keep_headers) :
    (buildHeaderMap hdr).getD i none =
      some (if (hdr.take i).count "%" = 0 then "mg/m^3_%" else "Cells-units/L_%") ∧
    dictGet (collectRow (buildHeaderMap hdr) row) n =
      (match lastMapIdx? (buildHeaderMap hdr) n with
       | some j => row.getD j ""
       | none => "") := by
  constructor
  · have h := buildHeaderMapAux_percent hdr 0 0 i hp
    rw [Nat.zero_add] at h
    exact h
  · exact collectRow_get _ row n hn

/-- C5 witness: the mapping theorem discharged at the concrete header and
short row of the counterexample (the third "%" is at index 5, past the row). -/
theorem C5_witness :
    (buildHeaderMap c5hdr).getD 2 none =
      some (if (c5hdr.take 2).count "%" = 0 then "mg/m^3_%" else "Cells-units/L_%") ∧
    dictGet (collectRow (buildHeaderMap c5hdr) c5row) "Cells-units/L_%" =
      (match lastMapIdx? (buildHeaderMap c5hdr) "Cells-units/L_%" with
       | some j => c5row.getD j ""
       | none => "") :=
  C5_percent_mapping c5hdr c5row 2 "Cells-units/L_%" (by decide) (by decide)

/-- C8: whenever the parse succeeds with Table 1 header at row `i` and Taxon
column `idxT`, every output Table 1 record has exactly as many cells as the
padded header; the common width is the fold of `max` over the kept records'
lengths seeded with the header length (i.e. the maximum of the header length
and the longest kept record); records are the kept candidates right-padded to
that width; and every record's Taxon cell is non-empty (candidates with an
empty or absent Taxon cell were dropped by the filter). -/
theorem C8_table1_invariants (d : List (List Cell)) (res : ParseResult) (i idxT : Nat)
    (h : extract_sections d = .ok res)
    (h1 : (nrows d).findIdx? isTable1Header = some i)
    (h2 : taxonIdx? ((nrows d).getD i []) = some idxT) :
    res.table1.header.length =
      ((((nrows d).drop (i + 1)).takeWhile (fun r => !(isSentinel1 r))).filter
          (fun r => decide (idxT < r.length) && (r.getD idxT "" != ""))).foldl
        (fun w r => max w r.length) ((nrows d).getD i []).length ∧
    res.table1.records =
      ((((nrows d).drop (i + 1)).takeWhile (fun r => !(isSentinel1 r))).filter
          (fun r => decide (idxT < r.length) && (r.getD idxT "" != ""))).map
        (padTo res.table1.header.length) ∧
    ∀ rec ∈ res.table1.records,
      rec.length = res.table1.header.length ∧ rec.getD idxT "" ≠ "" := by
  obtain ⟨i1, it, i2, i3, md, h1', h2', -, -, -, rfl⟩ := extract_ok_shape d res h
  rw [h1'] at h1
  injection h1 with h1
  subst h1
  rw [h2'] at h2
  injection h2 with h2
  subst h2
  simp only [table1Of]
  have hwidth :
      (padTo
        (((((nrows d).drop (i1 + 1)).takeWhile (fun r => !(isSentinel1 r))).filter
            (fun r => decide (it < r.length) && (r.getD it "" != ""))).foldl
          (fun w r => max w r.length) ((nrows d).getD i1 []).length)
        ((nrows d).getD i1 [])).length =
      ((((nrows d).drop (i1 + 1)).takeWhile (fun r => !(isSentinel1 r))).filter
          (fun r => decide (it < r.length) && (r.getD it "" != ""))).foldl
        (fun w r => max w r.length) ((nrows d).getD i1 []).length := padTo_length _ _
  refine ⟨hwidth, by rw [hwidth], ?_⟩
  intro rec hrec
  obtain ⟨r, hrmem, rfl⟩ := List.mem_map.mp hrec
  obtain ⟨-, hpred⟩ := List.mem_filter.mp hrmem
  have hlt : it < r.length := by
    have := (Bool.and_eq_true _ _).mp hpred |>.1
    simpa using this
  have hne : r.getD it "" ≠ "" := by
    have := (Bool.and_eq_true _ _).mp hpred |>.2
    simpa using this
  have hrw : r.length ≤
      ((((nrows d).drop (i1 + 1)).takeWhile (fun r => !(isSentinel1 r))).filter
          (fun r => decide (it < r.length) && (r.getD it "" != ""))).foldl
        (fun w r => max w r.length) ((nrows d).getD i1 []).length :=
    foldl_max_mem_le _ _ r hrmem
  constructor
  · rw [padTo_length, hwidth]
  · rw [padTo_getD_lt _ r it hlt hrw]
    exact hne

/-- C8 witness: the invariants discharged on the concrete parse of `wdoc`
(header row 1, Taxon column 0). -/
theorem C8_witness :
    wres.table1.header.length =
      ((((nrows wdoc).drop (1 + 1)).takeWhile (fun r => !(isSentinel1 r))).filter
          (fun r => decide (0 < r.length) && (r.getD 0 "" != ""))).foldl
        (fun w r => max w r.length) ((nrows wdoc).getD 1 []).length :=
  (C8_table1_invariants wdoc wres 1 0 (by decide) (by decide) (by decide)).1

/-- C9 (counterexample): in `c9doc`, row 3 contains "Phyto" and "Diversity"
but no cell contains "diversity:" — the claim's sentinel predicate rejects
it — yet extract.py stops the Table 1 body there, so only the single record
before row 3 survives instead of the three rows before the row-5 sentinel. -/
theorem C9_counterexample :
    (extract_sections c9doc).map (fun r => r.table1.records) = .ok [["Algae1", "S1"]] ∧
    ((nrows c9doc).getD 3 []).any (fun c => containsSub (strLower c) "diversity:") = false ∧
    isSentinel1 ((nrows c9doc).getD 3 []) = true :=
  ⟨by decide, by decide, by decide⟩

/-- C9 (amended): the Table 1 body consists of exactly the rows from header
index + 1 up to (excluding) the first row containing both "phyto" and
"diversity" — without the colon — as case-insensitive substrings of its cells
(or to end of document); the sentinel row is excluded and becomes the resume
index. -/
theorem C9_body_slice (rows : List Row) (idx1 idxTaxon : Nat) (body : List Row)
    (hb : body = (rows.drop (idx1 + 1)).takeWhile (fun r => !(isSentinel1 r))) :
    (table1Of rows idx1 idxTaxon).2 = idx1 + 1 + body.length ∧
    (∀ j, j < body.length → body.getD j [] = rows.getD (idx1 + 1 + j) [] ∧
      isSentinel1 (rows.getD (idx1 + 1 + j) []) = false) ∧
    (idx1 + 1 + body.length < rows.length →
      isSentinel1 (rows.getD (idx1 + 1 + body.length) []) = true) := by
  subst hb
  refine ⟨by simp [table1Of], ?_, ?_⟩
  · intro j hj
    have hspec := takeWhile_getD (fun r => !(isSentinel1 r)) (rows.drop (idx1 + 1)) j [] hj
    constructor
    · rw [hspec.1, getD_drop']
    · have h2 := hspec.2
      rw [getD_drop'] at h2
      simpa using h2
  · intro hlt
    have hdl :
        (((rows.drop (idx1 + 1)).takeWhile (fun r => !(isSentinel1 r))).length) <
          (rows.drop (idx1 + 1)).length := by
      rw [List.length_drop]
      omega
    have hstop := takeWhile_stopD (fun r => !(isSentinel1 r)) (rows.drop (idx1 + 1)) [] hdl
    rw [getD_drop'] at hstop
    simpa using hstop

/-- C9 witness: the body-slice fact discharged at the concrete rows of `wdoc`
(header row 1, sentinel row 3). -/
theorem C9_witness :
    (table1Of (nrows wdoc) 1 0).2 = 1 + 1 + ([["Algae1", "S1"]] : List Row).length :=
  (C9_body_slice (nrows wdoc) 1 0 [["Algae1", "S1"]] (by decide)).1

/-- C10: the Table 2 records are exactly one per row strictly between the
header row and the first row containing "====" (or end of document): the
records are the image of that slice under `t2Record`, their count equals the
slice's length, the slice's rows are the document rows in order and none of
them contains "====", the stopping row (when it exists) does, and a fully
blank row in the slice yields the record of six empty strings — no blank-row
filter is applied. -/
theorem C10_table2_body (rows : List Row) (idx2 : Nat) (body : List Row)
    (hb : body = (rows.drop (idx2 + 1)).takeWhile (fun r => !(rowHasStop2 r))) :
    (table2Of rows idx2).1.records =
      body.map (t2Record (buildHeaderMap (rows.getD idx2 []))) ∧
    (table2Of rows idx2).1.records.length = body.length ∧
    (∀ j, j < body.length → body.getD j [] = rows.getD (idx2 + 1 + j) [] ∧
      rowHasStop2 (rows.getD (idx2 + 1 + j) []) = false) ∧
    (idx2 + 1 + body.length < rows.length →
      rowHasStop2 (rows.getD (idx2 + 1 + body.length) []) = true) ∧
    (∀ r ∈ body, (∀ c ∈ r, c = "") →
      t2Record (buildHeaderMap (rows.getD idx2 [])) r = List.replicate 6 "") := by
  subst hb
  refine ⟨by simp [table2Of], by simp [table2Of], ?_, ?_, ?_⟩
  · intro j hj
    have hspec := takeWhile_getD (fun r => !(rowHasStop2 r)) (rows.drop (idx2 + 1)) j [] hj
    constructor
    · rw [hspec.1, getD_drop']
    · have h2 := hspec.2
      rw [getD_drop'] at h2
      simpa using h2
  · intro hlt
    have hdl :
        (((rows.drop (idx2 + 1)).takeWhile (fun r => !(rowHasStop2 r))).length) <
          (rows.drop (idx2 + 1)).length := by
      rw [List.length_drop]
      omega
    have hstop := takeWhile_stopD (fun r => !(rowHasStop2 r)) (rows.drop (idx2 + 1)) [] hdl
    rw [getD_drop'] at hstop
    simpa using hstop
  · intro r _ hblank
    exact t2Record_blank _ r hblank

/-- C10 witness: the record-count fact discharged at the concrete rows of
`wdoc` (Table 2 header row 4, one body row, "====" at row 6). -/
theorem C10_witness :
    (table2Of (nrows wdoc) 4).1.records.length =
      ([["AlgaX", "1", "2", "3", "4"]] : List Row).length :=
  (C10_table2_body (nrows wdoc) 4 [["AlgaX", "1", "2", "3", "4"]] (by decide)).2.1

end AlgaCsv
